import Mathlib

/-!
Shallow embedding of the MDAnalysisData fetch-and-cache subsystem, as
implemented by `src/MDAnalysisData/adk_equilibrium.py` and
`src/MDAnalysisData/ifabp_water.py`.  Both modules share one fetch body
(identical statement for statement, differing only in the constants
`NAME`, `DESCRIPTION` and `ARCHIVE`); it is embedded once as
`fetchDataset` and instantiated twice.

The helpers imported from `MDAnalysisData.base` (`get_data_home`,
`_fetch_remote`, `Bunch`) are not part of the sources; they are modelled
from the spec (sections 4.1, 4.2) and marked as such.

The filesystem is an explicit state `FS` (a list of directory paths and a
list of path/content pairs); the network is an association list from URL
to payload; the hash function is a parameter.  `fetchDataset` returns the
outcome (`Except` of an error or the assembled records), the final
filesystem, and the number of `_fetch_remote` invocations (network calls).
-/

namespace MDAnalysisData

/-- Structure `RemoteFileMetadata` from `base`, as used by both dataset modules:
filename, source url and expected (sha256) checksum. -/
structure RemoteFileMetadata where
  filename : String
  url : String
  checksum : String
deriving DecidableEq, Repr

/-- Filesystem state: existing directories and regular files (path with
content). -/
structure FS where
  dirs : List String
  files : List (String × String)
deriving DecidableEq, Repr

/-- Errors a fetch call can raise.  `ioError` is the `IOError` raised in
the dataset modules; `integrityError` and `transientFetchError` are raised
by the downloader; `descrMissing` stands for a failure to read the
description file. -/
inductive FetchError where
  | ioError (msg : String)
  | integrityError (msg : String)
  | transientFetchError (msg : String)
  | descrMissing (descrFile : String)
deriving DecidableEq, Repr

/-- Existence check `os.path.exists`: true if a directory or a file exists at `p`. -/
def pathExists (fs : FS) (p : String) : Bool :=
  fs.dirs.any (fun d => d == p) || fs.files.any (fun kv => kv.fst == p)

/-- Content of the file at `p`, if a file is there. -/
def getFile (fs : FS) (p : String) : Option String :=
  (fs.files.find? (fun kv => kv.fst == p)).map Prod.snd

/-- Place content `c` at path `p` (atomic replacement: the old entry, if
any, is gone and the new one is visible in one step). -/
def putFile (fs : FS) (p c : String) : FS :=
  { fs with files := (p, c) :: fs.files.filter (fun kv => kv.fst != p) }

/-- Directory creation `os.makedirs(join(root, sub))` as called at the single call site: the
argument is always `<root>/<sub>`, so recursive creation makes `root`
(when absent) and then `<root>/<sub>`.  Permission and path-conflict
failures are outside the model. -/
def makedirs (fs : FS) (root sub : String) : FS :=
  let fs1 := if pathExists fs root then fs else { fs with dirs := root :: fs.dirs }
  { fs1 with dirs := (root ++ "/" ++ sub) :: fs1.dirs }

/-- Association-list lookup (first match wins, like a dict). -/
def lookupAssoc (l : List (String × String)) (k : String) : Option String :=
  (l.find? (fun kv => kv.fst == k)).map Prod.snd

/-- Modelled from the spec: `MDAnalysisData.base.get_data_home` is not
under src/.  Per spec section 4.1 (CacheLocator.resolve_root) it returns the
override when given, else a fixed default under the user's home
directory. -/
def get_data_home (dataHome : Option String) : String :=
  dataHome.getD "~/MDAnalysis_data"

/-- Message of the `IOError` raised in the dataset modules:
`"Data {0}={1} not found and `download_if_missing` is False"`. -/
def ioMsg (fileType localPath : String) : String :=
  "Data " ++ fileType ++ "=" ++ localPath ++
    " not found and `download_if_missing` is False"

/-- Modelled from the spec: message of the downloader's IntegrityError,
identifying the target path and the actual versus expected checksum (spec
sections 4.2, 7).  The downloader receives only the metadata and the target
directory, so the message can carry no role name. -/
def integrityMsg (localPath actual expected : String) : String :=
  localPath ++ " has a checksum (" ++ actual ++
    ") differing from the expected checksum (" ++ expected ++ ")"

/-- Modelled from the spec: message of the downloader's
TransientFetchError (spec sections 4.2, 7). -/
def transientMsg (url localPath : String) : String :=
  "Download of " ++ url ++ " to " ++ localPath ++ " failed"

/-- Modelled from the spec: `MDAnalysisData.base._fetch_remote` is not
under src/.  Per spec section 4.2 (Downloader): if the target file already
exists the cached file is returned without network access; otherwise the
remote resource is retrieved (a `net` lookup; a miss is a network
failure raising TransientFetchError), its digest is compared to the
expected checksum, a mismatch discards the data and raises IntegrityError
leaving the filesystem unchanged, and a match places the file atomically
at `<dirname>/<filename>`. -/
def fetch_remote (hash : String → String) (net : List (String × String))
    (meta : RemoteFileMetadata) (dirname : String) (fs : FS) :
    Except FetchError (String × FS) :=
  if pathExists fs (dirname ++ "/" ++ meta.filename) then
    .ok (dirname ++ "/" ++ meta.filename, fs)
  else
    match lookupAssoc net meta.url with
    | none =>
      .error (.transientFetchError (transientMsg meta.url (dirname ++ "/" ++ meta.filename)))
    | some payload =>
      if hash payload == meta.checksum then
        .ok (dirname ++ "/" ++ meta.filename,
             putFile fs (dirname ++ "/" ++ meta.filename) payload)
      else
        .error (.integrityError
          (integrityMsg (dirname ++ "/" ++ meta.filename) (hash payload) meta.checksum))

/-- The per-file loop shared by `fetch_adk_equilibrium` and
`fetch_ifabp_water` (lines 99-109 and 106-116): for each
`(file_type, meta)` of `ARCHIVE` in order, record
`local_path = join(data_location, meta.filename)`; when the file is
absent, raise `IOError` if `download_if_missing` is false, else call
`_fetch_remote`.  Returns the outcome, the filesystem after the loop, and
the number of `_fetch_remote` invocations.  (In the Python code the
record entry is assigned before the existence check, but on an exception
the dict never escapes the function, so only completed record lists are
observable.) -/
def fetchLoop (hash : String → String) (net : List (String × String))
    (downloadIfMissing : Bool) (dataLocation : String) :
    List (String × RemoteFileMetadata) → FS →
    Except FetchError (List (String × String)) × FS × Nat
  | [], fs => (.ok [], fs, 0)
  | (fileType, m) :: rest, fs =>
    if pathExists fs (dataLocation ++ "/" ++ m.filename) then
      match fetchLoop hash net downloadIfMissing dataLocation rest fs with
      | (.ok recs, fs1, n) =>
        (.ok ((fileType, dataLocation ++ "/" ++ m.filename) :: recs), fs1, n)
      | (.error e, fs1, n) => (.error e, fs1, n)
    else if downloadIfMissing = false then
      (.error (.ioError (ioMsg fileType (dataLocation ++ "/" ++ m.filename))), fs, 0)
    else
      match fetch_remote hash net m dataLocation fs with
      | .error e => (.error e, fs, 1)
      | .ok (_, fs1) =>
        match fetchLoop hash net downloadIfMissing dataLocation rest fs1 with
        | (.ok recs, fs2, n) =>
          (.ok ((fileType, dataLocation ++ "/" ++ m.filename) :: recs), fs2, n + 1)
        | (.error e, fs2, n) => (.error e, fs2, n + 1)

/-- The whole fetch body shared by `fetch_adk_equilibrium` and
`fetch_ifabp_water`: resolve `data_location = join(get_data_home(..), name)`,
create it when absent, run the per-file loop, then read the description
text (`descrStore` stands for the packaged `descr/<DESCRIPTION>` files)
and attach it as `DESCR`. -/
def fetchDataset (name descrFile : String)
    (archive : List (String × RemoteFileMetadata))
    (hash : String → String) (net descrStore : List (String × String))
    (dataHome : Option String) (downloadIfMissing : Bool) (fs : FS) :
    Except FetchError (List (String × String)) × FS × Nat :=
  match fetchLoop hash net downloadIfMissing (get_data_home dataHome ++ "/" ++ name)
      archive
      (if pathExists fs (get_data_home dataHome ++ "/" ++ name) then fs
       else makedirs fs (get_data_home dataHome) name) with
  | (.error e, fs1, n) => (.error e, fs1, n)
  | (.ok recs, fs1, n) =>
    match lookupAssoc descrStore descrFile with
    | none => (.error (.descrMissing descrFile), fs1, n)
    | some text => (.ok (recs ++ [("DESCR", text)]), fs1, n)

namespace adk_equilibrium

def NAME : String := "adk_equilibrium"

def DESCRIPTION : String := "adk_equilibrium.rst"

/-- Constant `ARCHIVE` of `adk_equilibrium.py`, in dict insertion order. -/
def ARCHIVE : List (String × RemoteFileMetadata) :=
  [("topology",
    { filename := "adk4AKE.psf",
      url := "https://ndownloader.figshare.com/files/8672230",
      checksum := "1aa947d58fb41b6805dc1e7be4dbe65c6a8f4690f0bd7fc2ae03e7bd437085f4" }),
   ("trajectory",
    { filename := "1ake_007-nowater-core-dt240ps.dcd",
      url := "https://ndownloader.figshare.com/files/8672074",
      checksum := "598fcbcfcc425f6eafbe9997238320fcacc6a4613ecce061e1521732bab734bf" })]

end adk_equilibrium

/-- Function `fetch_adk_equilibrium(data_home=None, download_if_missing=True)`. -/
def fetch_adk_equilibrium (hash : String → String)
    (net descrStore : List (String × String)) (dataHome : Option String)
    (downloadIfMissing : Bool) (fs : FS) :
    Except FetchError (List (String × String)) × FS × Nat :=
  fetchDataset adk_equilibrium.NAME adk_equilibrium.DESCRIPTION
    adk_equilibrium.ARCHIVE hash net descrStore dataHome downloadIfMissing fs

namespace ifabp_water

def NAME : String := "ifabp_water"

def DESCRIPTION : String := "ifabp_water.rst"

/-- Constant `ARCHIVE` of `ifabp_water.py`, in dict insertion order. -/
def ARCHIVE : List (String × RemoteFileMetadata) :=
  [("topology",
    { filename := "ifabp_water.psf",
      url := "https://ndownloader.figshare.com/files/12980639",
      checksum := "ba40714318aabec537015dc550fe5bd5ac1ac0b853f5abdd2f0ae63af9cfcafa" }),
   ("structure",
    { filename := "ifabp_water_0.pdb",
      url := "https://ndownloader.figshare.com/files/12980636",
      checksum := "8ccf5f75fd85385921c0cb77f00281a93b933fc1261c42fc9492f43983448a72" }),
   ("trajectory",
    { filename := "rmsfit_ifabp_water_1.dcd",
      url := "https://ndownloader.figshare.com/files/12980642",
      checksum := "cebb48e58015abc8ff2f5bb7ba3eb7a289047f256351a8252bf1f29f9aaacf0e" })]

end ifabp_water

/-- Function `fetch_ifabp_water(data_home=None, download_if_missing=True)`. -/
def fetch_ifabp_water (hash : String → String)
    (net descrStore : List (String × String)) (dataHome : Option String)
    (downloadIfMissing : Bool) (fs : FS) :
    Except FetchError (List (String × String)) × FS × Nat :=
  fetchDataset ifabp_water.NAME ifabp_water.DESCRIPTION
    ifabp_water.ARCHIVE hash net descrStore dataHome downloadIfMissing fs

/-- Substring test used to state that an error message identifies a piece
of data: `needle` occurs contiguously in `hay`. -/
def leadsWith : List Char → List Char → Bool
  | [], _ => true
  | _ :: _, [] => false
  | a :: as, b :: bs => a == b && leadsWith as bs

/-- Test `occursIn n h`: `n` occurs as a contiguous run in `h`. -/
def occursIn (n : List Char) : List Char → Bool
  | [] => leadsWith n []
  | b :: bs => leadsWith n (b :: bs) || occursIn n bs

/-- String-level wrapper of `occursIn`. -/
def strOccurs (needle hay : String) : Bool :=
  occursIn needle.data hay.data

/-- Default-location cache path of the AdK topology file. -/
def adkPsfPath : String := "~/MDAnalysis_data/adk_equilibrium/adk4AKE.psf"

/-- Default-location cache path of the AdK trajectory file. -/
def adkDcdPath : String :=
  "~/MDAnalysis_data/adk_equilibrium/1ake_007-nowater-core-dt240ps.dcd"

/-- Expected checksum of the AdK topology file. -/
def adkPsfChecksum : String :=
  "1aa947d58fb41b6805dc1e7be4dbe65c6a8f4690f0bd7fc2ae03e7bd437085f4"

/-- Expected checksum of the AdK trajectory file. -/
def adkDcdChecksum : String :=
  "598fcbcfcc425f6eafbe9997238320fcacc6a4613ecce061e1521732bab734bf"

/-- Description store holding the packaged AdK description text. -/
def adkDescrStore : List (String × String) :=
  [("adk_equilibrium.rst", "AdK equilibrium dataset")]

/-- A network serving both AdK files with content matching the expected
checksums (under the identity hash used in concrete runs). -/
def adkGoodNet : List (String × String) :=
  [("https://ndownloader.figshare.com/files/8672230", adkPsfChecksum),
   ("https://ndownloader.figshare.com/files/8672074", adkDcdChecksum)]

/-- A network serving corrupted content for the AdK topology file. -/
def adkBadNet : List (String × String) :=
  [("https://ndownloader.figshare.com/files/8672230", "garbage")]

/-- The empty filesystem: a fresh cache. -/
def emptyFS : FS := { dirs := [], files := [] }

/-- Cache state in which both AdK files are present but their contents were
mutated and no longer match the expected checksums. -/
def mutatedFS : FS :=
  { dirs := ["~/MDAnalysis_data", "~/MDAnalysis_data/adk_equilibrium"],
    files := [(adkPsfPath, "garbage"), (adkDcdPath, "garbage2")] }

/-- Filesystem state after a successful AdK fetch from the empty cache. -/
def adkFetchedFS : FS :=
  { dirs := ["~/MDAnalysis_data/adk_equilibrium", "~/MDAnalysis_data"],
    files := [(adkDcdPath, adkDcdChecksum), (adkPsfPath, adkPsfChecksum)] }

/-- Default-location cache path of the I-FABP topology file. -/
def ifabpPsfPath : String := "~/MDAnalysis_data/ifabp_water/ifabp_water.psf"

/-- Default-location cache path of the I-FABP structure file. -/
def ifabpPdbPath : String := "~/MDAnalysis_data/ifabp_water/ifabp_water_0.pdb"

/-- Default-location cache path of the I-FABP trajectory file. -/
def ifabpDcdPath : String :=
  "~/MDAnalysis_data/ifabp_water/rmsfit_ifabp_water_1.dcd"

/-- Expected checksum of the I-FABP topology file. -/
def ifabpPsfChecksum : String :=
  "ba40714318aabec537015dc550fe5bd5ac1ac0b853f5abdd2f0ae63af9cfcafa"

/-- Expected checksum of the I-FABP structure file. -/
def ifabpPdbChecksum : String :=
  "8ccf5f75fd85385921c0cb77f00281a93b933fc1261c42fc9492f43983448a72"

/-- Expected checksum of the I-FABP trajectory file. -/
def ifabpDcdChecksum : String :=
  "cebb48e58015abc8ff2f5bb7ba3eb7a289047f256351a8252bf1f29f9aaacf0e"

/-- Description store holding the packaged I-FABP description text. -/
def ifabpDescrStore : List (String × String) :=
  [("ifabp_water.rst", "IFABP water dataset")]

/-- A network serving the three I-FABP files with content matching the
expected checksums (under the identity hash used in concrete runs). -/
def ifabpNet : List (String × String) :=
  [("https://ndownloader.figshare.com/files/12980639", ifabpPsfChecksum),
   ("https://ndownloader.figshare.com/files/12980636", ifabpPdbChecksum),
   ("https://ndownloader.figshare.com/files/12980642", ifabpDcdChecksum)]

/-- Filesystem state after a successful I-FABP fetch from the empty cache. -/
def ifabpFetchedFS : FS :=
  { dirs := ["~/MDAnalysis_data/ifabp_water", "~/MDAnalysis_data"],
    files := [(ifabpDcdPath, ifabpDcdChecksum), (ifabpPdbPath, ifabpPdbChecksum),
              (ifabpPsfPath, ifabpPsfChecksum)] }

theorem putFile_dirs (fs : FS) (q c : String) : (putFile fs q c).dirs = fs.dirs := rfl

theorem pathExists_putFile_self (fs : FS) (q c : String) :
    pathExists (putFile fs q c) q = true := by
  simp [pathExists, putFile]

theorem pathExists_putFile_of (fs : FS) (q c p : String)
    (h : pathExists fs p = true) : pathExists (putFile fs q c) p = true := by
  simp only [pathExists, putFile, Bool.or_eq_true, List.any_eq_true, beq_iff_eq] at h ⊢
  rcases h with h | ⟨kv, hm, hp⟩
  · exact Or.inl h
  · by_cases hq : p = q
    · exact Or.inr ⟨(q, c), List.mem_cons_self _ _, hq.symm⟩
    · refine Or.inr ⟨kv, List.mem_cons_of_mem _ (List.mem_filter.mpr ⟨hm, ?_⟩), hp⟩
      exact bne_iff_ne.mpr (by rw [hp]; exact hq)

theorem pathExists_cons_dir (d : String) (ds : List String)
    (files : List (String × String)) (p : String) :
    pathExists ⟨d :: ds, files⟩ p = ((d == p) || pathExists ⟨ds, files⟩ p) := by
  simp [pathExists, List.any_cons, Bool.or_assoc]

theorem makedirs_mem_sub (fs : FS) (root sub : String) :
    (root ++ "/" ++ sub) ∈ (makedirs fs root sub).dirs := by
  unfold makedirs
  split <;> exact List.mem_cons_self _ _

theorem makedirs_mem_root (fs : FS) (root sub : String)
    (h : pathExists fs root = false) : root ∈ (makedirs fs root sub).dirs := by
  unfold makedirs
  rw [h]
  simp

theorem makedirs_dirs_subset (fs : FS) (root sub : String) :
    ∀ d ∈ (makedirs fs root sub).dirs,
      d ∈ fs.dirs ∨ d = root ∨ d = root ++ "/" ++ sub := by
  intro d hd
  unfold makedirs at hd
  split at hd <;> simp only [List.mem_cons] at hd <;> tauto

theorem makedirs_mono (fs : FS) (root sub p : String)
    (h : pathExists fs p = true) : pathExists (makedirs fs root sub) p = true := by
  unfold makedirs
  split <;> simp [pathExists_cons_dir] <;>
    simp only [pathExists, Bool.or_eq_true] at h ⊢ <;> tauto

theorem makedirs_files (fs : FS) (root sub : String) :
    (makedirs fs root sub).files = fs.files := by
  unfold makedirs
  split <;> rfl

theorem pathExists_makedirs_ne (fs : FS) (root sub p : String)
    (h1 : p ≠ root) (h2 : p ≠ root ++ "/" ++ sub) :
    pathExists (makedirs fs root sub) p = pathExists fs p := by
  have hb2 : ((root ++ "/" ++ sub) == p) = false :=
    beq_eq_false_iff_ne.mpr (fun h => h2 h.symm)
  have hb1 : (root == p) = false := beq_eq_false_iff_ne.mpr (fun h => h1 h.symm)
  unfold makedirs
  split
  · rw [pathExists_cons_dir, hb2, Bool.false_or]
  · rw [pathExists_cons_dir, hb2, Bool.false_or, pathExists_cons_dir, hb1,
      Bool.false_or]

theorem slash_length : ("/" : String).length = 1 := rfl

theorem append_slash_ne (a b : String) : a ++ "/" ++ b ≠ a := by
  intro h
  have h2 := congrArg String.length h
  simp only [String.length_append, slash_length] at h2
  omega

theorem append_slash_slash_ne (a b c : String) : a ++ "/" ++ b ++ "/" ++ c ≠ a := by
  intro h
  have h2 := congrArg String.length h
  simp only [String.length_append, slash_length] at h2
  omega

theorem fetch_remote_ok {hash : String → String} {net : List (String × String)}
    {m : RemoteFileMetadata} {dirname : String} {fs : FS} {p : String} {fs' : FS}
    (h : fetch_remote hash net m dirname fs = .ok (p, fs')) :
    p = dirname ++ "/" ++ m.filename ∧ fs'.dirs = fs.dirs ∧
      pathExists fs' (dirname ++ "/" ++ m.filename) = true ∧
      ∀ q, pathExists fs q = true → pathExists fs' q = true := by
  unfold fetch_remote at h
  split at h
  · rename_i hex
    injection h with h
    injection h with hp hfs
    subst hp; subst hfs
    exact ⟨rfl, rfl, hex, fun q hq => hq⟩
  · rename_i hex
    split at h
    · exact absurd h (by simp)
    · rename_i payload hnet
      split at h
      · injection h with h
        injection h with hp hfs
        subst hp; subst hfs
        exact ⟨rfl, rfl, pathExists_putFile_self _ _ _,
          fun q hq => pathExists_putFile_of _ _ _ _ hq⟩
      · exact absurd h (by simp)

theorem fetch_remote_err {hash : String → String} {net : List (String × String)}
    {m : RemoteFileMetadata} {dirname : String} {fs : FS} {e : FetchError}
    (h : fetch_remote hash net m dirname fs = .error e) :
    (lookupAssoc net m.url = none ∧
      e = .transientFetchError (transientMsg m.url (dirname ++ "/" ++ m.filename))) ∨
    ∃ payload, lookupAssoc net m.url = some payload ∧
      (hash payload == m.checksum) = false ∧
      e = .integrityError
        (integrityMsg (dirname ++ "/" ++ m.filename) (hash payload) m.checksum) := by
  unfold fetch_remote at h
  split at h
  · exact absurd h (by simp)
  · split at h
    · rename_i hnet
      injection h with h
      exact Or.inl ⟨hnet, h.symm⟩
    · rename_i payload hnet
      split at h
      · exact absurd h (by simp)
      · rename_i hchk
        injection h with h
        exact Or.inr ⟨payload, hnet, by simpa using hchk, h.symm⟩

theorem fetchLoop_dirs (hash : String → String) (net : List (String × String))
    (dlm : Bool) (loc : String) :
    ∀ (l : List (String × RemoteFileMetadata)) (fs : FS),
      ((fetchLoop hash net dlm loc l fs).2.1).dirs = fs.dirs := by
  intro l
  induction l with
  | nil => intro fs; rfl
  | cons hd rest ih =>
    intro fs
    obtain ⟨ft, m⟩ := hd
    by_cases hex : pathExists fs (loc ++ "/" ++ m.filename) = true
    · have hdirs := ih fs
      rcases hrec : fetchLoop hash net dlm loc rest fs with ⟨res, fs1, n⟩
      rw [hrec] at hdirs
      cases res <;> simp_all [fetchLoop]
    · simp only [Bool.not_eq_true] at hex
      by_cases hdlm : dlm = false
      · subst hdlm
        simp [fetchLoop, hex]
      · simp only [Bool.not_eq_false] at hdlm
        subst hdlm
        rcases hfr : fetch_remote hash net m loc fs with e | ⟨p, fs1⟩
        · simp [fetchLoop, hex, hfr]
        · obtain ⟨-, hdirs1, -, -⟩ := fetch_remote_ok hfr
          have hdirs := ih fs1
          rcases hrec : fetchLoop hash net true loc rest fs1 with ⟨res, fs2, n⟩
          rw [hrec] at hdirs
          cases res <;> simp_all [fetchLoop]

theorem fetchLoop_files_mono (hash : String → String) (net : List (String × String))
    (dlm : Bool) (loc : String) :
    ∀ (l : List (String × RemoteFileMetadata)) (fs : FS) (q : String),
      pathExists fs q = true →
      pathExists (fetchLoop hash net dlm loc l fs).2.1 q = true := by
  intro l
  induction l with
  | nil => intro fs q hq; exact hq
  | cons hd rest ih =>
    intro fs q hq
    obtain ⟨ft, m⟩ := hd
    by_cases hex : pathExists fs (loc ++ "/" ++ m.filename) = true
    · have hmono := ih fs q hq
      rcases hrec : fetchLoop hash net dlm loc rest fs with ⟨res, fs1, n⟩
      rw [hrec] at hmono
      cases res <;> simp_all [fetchLoop]
    · simp only [Bool.not_eq_true] at hex
      by_cases hdlm : dlm = false
      · subst hdlm
        simpa [fetchLoop, hex] using hq
      · simp only [Bool.not_eq_false] at hdlm
        subst hdlm
        rcases hfr : fetch_remote hash net m loc fs with e | ⟨p, fs1⟩
        · simpa [fetchLoop, hex, hfr] using hq
        · obtain ⟨-, -, -, hmono1⟩ := fetch_remote_ok hfr
          have hmono := ih fs1 q (hmono1 q hq)
          rcases hrec : fetchLoop hash net true loc rest fs1 with ⟨res, fs2, n⟩
          rw [hrec] at hmono
          cases res <;> simp_all [fetchLoop]

theorem fetchLoop_ok_shape (hash : String → String) (net : List (String × String))
    (dlm : Bool) (loc : String) :
    ∀ (l : List (String × RemoteFileMetadata)) (fs : FS)
      (recs : List (String × String)) (fs' : FS) (n : Nat),
      fetchLoop hash net dlm loc l fs = (.ok recs, fs', n) →
      recs = l.map (fun rm => (rm.1, loc ++ "/" ++ rm.2.filename)) := by
  intro l
  induction l with
  | nil =>
    intro fs recs fs' n h
    simp only [fetchLoop, Prod.mk.injEq, Except.ok.injEq] at h
    simp [← h.1]
  | cons hd rest ih =>
    intro fs recs fs' n h
    obtain ⟨ft, m⟩ := hd
    by_cases hex : pathExists fs (loc ++ "/" ++ m.filename) = true
    · rcases hrec : fetchLoop hash net dlm loc rest fs with ⟨res, fs1, n1⟩
      cases res with
      | ok recs1 =>
        simp only [fetchLoop, hex, if_true, hrec, Prod.mk.injEq,
          Except.ok.injEq] at h
        obtain ⟨hrecs, -, -⟩ := h
        simp [← hrecs, ih fs recs1 fs1 n1 hrec]
      | error e => simp [fetchLoop, hex, hrec] at h
    · simp only [Bool.not_eq_true] at hex
      by_cases hdlm : dlm = false
      · subst hdlm
        simp [fetchLoop, hex] at h
      · simp only [Bool.not_eq_false] at hdlm
        subst hdlm
        rcases hfr : fetch_remote hash net m loc fs with e | ⟨p, fs1⟩
        · simp [fetchLoop, hex, hfr] at h
        · rcases hrec : fetchLoop hash net true loc rest fs1 with ⟨res, fs2, n1⟩
          cases res with
          | ok recs1 =>
            simp only [fetchLoop, hex, Bool.false_eq_true, Bool.true_eq_false, if_false,
              hfr, hrec, Prod.mk.injEq, Except.ok.injEq] at h
            obtain ⟨hrecs, hfs2, -⟩ := h
            subst hfs2
            simp [← hrecs, ih fs1 recs1 fs2 n1 hrec]
          | error e => simp [fetchLoop, hex, hfr, hrec] at h

theorem fetchLoop_ok_exists (hash : String → String) (net : List (String × String))
    (dlm : Bool) (loc : String) :
    ∀ (l : List (String × RemoteFileMetadata)) (fs : FS)
      (recs : List (String × String)) (fs' : FS) (n : Nat),
      fetchLoop hash net dlm loc l fs = (.ok recs, fs', n) →
      ∀ rm ∈ l, pathExists fs' (loc ++ "/" ++ rm.2.filename) = true := by
  intro l
  induction l with
  | nil =>
    intro fs recs fs' n h rm hrm
    exact absurd hrm (List.not_mem_nil rm)
  | cons hd rest ih =>
    intro fs recs fs' n h rm hrm
    obtain ⟨ft, m⟩ := hd
    by_cases hex : pathExists fs (loc ++ "/" ++ m.filename) = true
    · rcases hrec : fetchLoop hash net dlm loc rest fs with ⟨res, fs1, n1⟩
      cases res with
      | ok recs1 =>
        simp only [fetchLoop, hex, if_true, hrec, Prod.mk.injEq,
          Except.ok.injEq] at h
        obtain ⟨-, hfs, -⟩ := h
        subst hfs
        rcases List.mem_cons.mp hrm with hrm1 | hrm1
        · subst hrm1
          have := fetchLoop_files_mono hash net dlm loc rest fs _ hex
          rw [hrec] at this
          exact this
        · exact ih fs recs1 fs1 n1 hrec rm hrm1
      | error e => simp [fetchLoop, hex, hrec] at h
    · simp only [Bool.not_eq_true] at hex
      by_cases hdlm : dlm = false
      · subst hdlm
        simp [fetchLoop, hex] at h
      · simp only [Bool.not_eq_false] at hdlm
        subst hdlm
        rcases hfr : fetch_remote hash net m loc fs with e | ⟨p, fs1⟩
        · simp [fetchLoop, hex, hfr] at h
        · rcases hrec : fetchLoop hash net true loc rest fs1 with ⟨res, fs2, n1⟩
          cases res with
          | ok recs1 =>
            simp only [fetchLoop, hex, Bool.false_eq_true, Bool.true_eq_false, if_false,
              hfr, hrec, Prod.mk.injEq, Except.ok.injEq] at h
            obtain ⟨-, hfs, -⟩ := h
            subst hfs
            rcases List.mem_cons.mp hrm with hrm1 | hrm1
            · subst hrm1
              obtain ⟨-, -, hpe, -⟩ := fetch_remote_ok hfr
              have := fetchLoop_files_mono hash net true loc rest fs1 _ hpe
              rw [hrec] at this
              exact this
            · exact ih fs1 recs1 fs2 n1 hrec rm hrm1
          | error e => simp [fetchLoop, hex, hfr, hrec] at h

theorem fetchLoop_all_present (hash : String → String) (net : List (String × String))
    (dlm : Bool) (loc : String) :
    ∀ (l : List (String × RemoteFileMetadata)) (fs : FS),
      (∀ rm ∈ l, pathExists fs (loc ++ "/" ++ rm.2.filename) = true) →
      fetchLoop hash net dlm loc l fs =
        (.ok (l.map (fun rm => (rm.1, loc ++ "/" ++ rm.2.filename))), fs, 0) := by
  intro l
  induction l with
  | nil => intro fs _; rfl
  | cons hd rest ih =>
    intro fs hall
    obtain ⟨ft, m⟩ := hd
    have hex : pathExists fs (loc ++ "/" ++ m.filename) = true :=
      hall (ft, m) (List.mem_cons_self _ _)
    have hrest := ih fs (fun rm hrm => hall rm (List.mem_cons_of_mem _ hrm))
    simp [fetchLoop, hex, hrest]

theorem fetchLoop_disabled (hash : String → String) (net : List (String × String))
    (loc : String) :
    ∀ (l : List (String × RemoteFileMetadata)) (fs : FS),
      fetchLoop hash net false loc l fs =
        (match l.find? (fun rm => !(pathExists fs (loc ++ "/" ++ rm.2.filename))) with
         | none => (.ok (l.map (fun rm => (rm.1, loc ++ "/" ++ rm.2.filename))), fs, 0)
         | some rm =>
           (.error (.ioError (ioMsg rm.1 (loc ++ "/" ++ rm.2.filename))), fs, 0)) := by
  intro l
  induction l with
  | nil => intro fs; rfl
  | cons hd rest ih =>
    intro fs
    obtain ⟨ft, m⟩ := hd
    by_cases hex : pathExists fs (loc ++ "/" ++ m.filename) = true
    · rcases hfind : rest.find? (fun rm => !(pathExists fs (loc ++ "/" ++ rm.2.filename)))
        with _ | rm0 <;>
        simp [fetchLoop, hex, List.find?_cons, ih fs, hfind]
    · simp only [Bool.not_eq_true] at hex
      simp [fetchLoop, hex, List.find?_cons]

theorem fetchLoop_error (hash : String → String) (net : List (String × String))
    (dlm : Bool) (loc : String) :
    ∀ (l : List (String × RemoteFileMetadata)) (fs : FS) (e : FetchError)
      (fs' : FS) (n : Nat),
      fetchLoop hash net dlm loc l fs = (.error e, fs', n) →
      ∃ rm, rm ∈ l ∧
        (e = .ioError (ioMsg rm.1 (loc ++ "/" ++ rm.2.filename)) ∨
         (∃ payload, lookupAssoc net rm.2.url = some payload ∧
            (hash payload == rm.2.checksum) = false ∧
            e = .integrityError
              (integrityMsg (loc ++ "/" ++ rm.2.filename) (hash payload) rm.2.checksum)) ∨
         (lookupAssoc net rm.2.url = none ∧
          e = .transientFetchError (transientMsg rm.2.url (loc ++ "/" ++ rm.2.filename)))) := by
  intro l
  induction l with
  | nil =>
    intro fs e fs' n h
    simp [fetchLoop] at h
  | cons hd rest ih =>
    intro fs e fs' n h
    obtain ⟨ft, m⟩ := hd
    by_cases hex : pathExists fs (loc ++ "/" ++ m.filename) = true
    · rcases hrec : fetchLoop hash net dlm loc rest fs with ⟨res, fs1, n1⟩
      cases res with
      | ok recs1 => simp [fetchLoop, hex, hrec] at h
      | error e1 =>
        simp only [fetchLoop, hex, if_true, hrec, Prod.mk.injEq,
          Except.error.injEq] at h
        obtain ⟨he, -, -⟩ := h
        obtain ⟨rm, hrm, hcase⟩ := ih fs e1 fs1 n1 hrec
        exact ⟨rm, List.mem_cons_of_mem _ hrm, he ▸ hcase⟩
    · simp only [Bool.not_eq_true] at hex
      by_cases hdlm : dlm = false
      · subst hdlm
        simp only [fetchLoop, hex, Bool.false_eq_true, if_false, if_true,
          Prod.mk.injEq, Except.error.injEq] at h
        obtain ⟨he, -, -⟩ := h
        exact ⟨(ft, m), List.mem_cons_self _ _, Or.inl he.symm⟩
      · simp only [Bool.not_eq_false] at hdlm
        subst hdlm
        rcases hfr : fetch_remote hash net m loc fs with e1 | ⟨p, fs1⟩
        · simp only [fetchLoop, hex, Bool.false_eq_true, Bool.true_eq_false,
            if_false, hfr, Prod.mk.injEq, Except.error.injEq] at h
          obtain ⟨he, -, -⟩ := h
          rcases fetch_remote_err hfr with ⟨hnet, he1⟩ | ⟨payload, hnet, hchk, he1⟩
          · exact ⟨(ft, m), List.mem_cons_self _ _,
              Or.inr (Or.inr ⟨hnet, by rw [← he, he1]⟩)⟩
          · exact ⟨(ft, m), List.mem_cons_self _ _,
              Or.inr (Or.inl ⟨payload, hnet, hchk, by rw [← he, he1]⟩)⟩
        · rcases hrec : fetchLoop hash net true loc rest fs1 with ⟨res, fs2, n1⟩
          cases res with
          | ok recs1 => simp [fetchLoop, hex, hfr, hrec] at h
          | error e1 =>
            simp only [fetchLoop, hex, Bool.false_eq_true, Bool.true_eq_false,
              if_false, hfr, hrec, Prod.mk.injEq, Except.error.injEq] at h
            obtain ⟨he, -, -⟩ := h
            obtain ⟨rm, hrm, hcase⟩ := ih fs1 e1 fs2 n1 hrec
            exact ⟨rm, List.mem_cons_of_mem _ hrm, he ▸ hcase⟩

theorem pathExists_step_loc (fs : FS) (root nm : String) :
    pathExists (if pathExists fs (root ++ "/" ++ nm) then fs else makedirs fs root nm)
      (root ++ "/" ++ nm) = true := by
  split
  · assumption
  · simp only [pathExists, Bool.or_eq_true, List.any_eq_true, beq_iff_eq]
    exact Or.inl ⟨_, makedirs_mem_sub fs root nm, rfl⟩

theorem pathExists_step_local (fs : FS) (root nm f : String) :
    pathExists (if pathExists fs (root ++ "/" ++ nm) then fs else makedirs fs root nm)
      (root ++ "/" ++ nm ++ "/" ++ f) =
      pathExists fs (root ++ "/" ++ nm ++ "/" ++ f) := by
  split
  · rfl
  · exact pathExists_makedirs_ne fs root nm _ (append_slash_slash_ne root nm f)
      (append_slash_ne (root ++ "/" ++ nm) f)

theorem find_congr_on {α : Type} (p q : α → Bool) :
    ∀ l : List α, (∀ x ∈ l, p x = q x) → l.find? p = l.find? q := by
  intro l
  induction l with
  | nil => intro _; rfl
  | cons a l ih =>
    intro h
    rw [List.find?_cons, List.find?_cons, h a (List.mem_cons_self _ _),
      ih (fun x hx => h x (List.mem_cons_of_mem _ hx))]

theorem leadsWith_self (n b : List Char) : leadsWith n (n ++ b) = true := by
  induction n with
  | nil => rfl
  | cons c cs ih => simp [leadsWith, ih]

theorem occursIn_nil_needle (h : List Char) : occursIn [] h = true := by
  cases h <;> simp [occursIn, leadsWith]

theorem occursIn_self_append (n b : List Char) : occursIn n (n ++ b) = true := by
  cases n with
  | nil => exact occursIn_nil_needle _
  | cons c cs => simp [occursIn, leadsWith, leadsWith_self]

theorem occursIn_append_left (x n h : List Char) (hh : occursIn n h = true) :
    occursIn n (x ++ h) = true := by
  induction x with
  | nil => exact hh
  | cons c cs ih => simp [occursIn, ih]

theorem strOccurs_mid (x pre post : String) : strOccurs x (pre ++ x ++ post) = true := by
  unfold strOccurs
  rw [String.data_append, String.data_append, List.append_assoc]
  exact occursIn_append_left _ _ _ (occursIn_self_append _ _)

theorem strOccurs_ioMsg_role (ft lp : String) : strOccurs ft (ioMsg ft lp) = true := by
  unfold strOccurs ioMsg
  simp only [String.data_append, List.append_assoc]
  exact occursIn_append_left _ _ _ (occursIn_self_append _ _)

theorem strOccurs_ioMsg_path (ft lp : String) : strOccurs lp (ioMsg ft lp) = true := by
  unfold strOccurs ioMsg
  simp only [String.data_append, List.append_assoc]
  exact occursIn_append_left _ _ _ (occursIn_append_left _ _ _
    (occursIn_append_left _ _ _ (occursIn_self_append _ _)))

theorem strOccurs_ioMsg_name (ft root nm f : String) :
    strOccurs nm (ioMsg ft (root ++ "/" ++ nm ++ "/" ++ f)) = true := by
  unfold strOccurs ioMsg
  simp only [String.data_append, List.append_assoc]
  exact occursIn_append_left _ _ _ (occursIn_append_left _ _ _
    (occursIn_append_left _ _ _ (occursIn_append_left _ _ _
      (occursIn_append_left _ _ _ (occursIn_self_append _ _)))))

theorem strOccurs_integrityMsg_path (lp a ex : String) :
    strOccurs lp (integrityMsg lp a ex) = true := by
  unfold strOccurs integrityMsg
  simp only [String.data_append, List.append_assoc]
  exact occursIn_self_append _ _

theorem strOccurs_integrityMsg_actual (lp a ex : String) :
    strOccurs a (integrityMsg lp a ex) = true := by
  unfold strOccurs integrityMsg
  simp only [String.data_append, List.append_assoc]
  exact occursIn_append_left _ _ _ (occursIn_append_left _ _ _
    (occursIn_self_append _ _))

theorem strOccurs_integrityMsg_expected (lp a ex : String) :
    strOccurs ex (integrityMsg lp a ex) = true := by
  unfold strOccurs integrityMsg
  simp only [String.data_append, List.append_assoc]
  exact occursIn_append_left _ _ _ (occursIn_append_left _ _ _
    (occursIn_append_left _ _ _ (occursIn_append_left _ _ _
      (occursIn_self_append _ _))))

theorem strOccurs_integrityMsg_name (root nm f a ex : String) :
    strOccurs nm (integrityMsg (root ++ "/" ++ nm ++ "/" ++ f) a ex) = true := by
  unfold strOccurs integrityMsg
  simp only [String.data_append, List.append_assoc]
  exact occursIn_append_left _ _ _ (occursIn_append_left _ _ _
    (occursIn_self_append _ _))

theorem strOccurs_transientMsg_path (url lp : String) :
    strOccurs lp (transientMsg url lp) = true := by
  unfold strOccurs transientMsg
  simp only [String.data_append, List.append_assoc]
  exact occursIn_append_left _ _ _ (occursIn_append_left _ _ _
    (occursIn_append_left _ _ _ (occursIn_self_append _ _)))

theorem strOccurs_transientMsg_name (url root nm f : String) :
    strOccurs nm (transientMsg url (root ++ "/" ++ nm ++ "/" ++ f)) = true := by
  unfold strOccurs transientMsg
  simp only [String.data_append, List.append_assoc]
  exact occursIn_append_left _ _ _ (occursIn_append_left _ _ _
    (occursIn_append_left _ _ _ (occursIn_append_left _ _ _
      (occursIn_append_left _ _ _ (occursIn_self_append _ _)))))

theorem fetchDataset_ok_elim {name descrFile : String}
    {archive : List (String × RemoteFileMetadata)} {hash : String → String}
    {net descrStore : List (String × String)} {dataHome : Option String}
    {dlm : Bool} {fs : FS} {recs : List (String × String)} {fs1 : FS} {n : Nat}
    (h : fetchDataset name descrFile archive hash net descrStore dataHome dlm fs
          = (.ok recs, fs1, n)) :
    ∃ t, lookupAssoc descrStore descrFile = some t ∧
      recs = archive.map
          (fun rm => (rm.1, get_data_home dataHome ++ "/" ++ name ++ "/" ++ rm.2.filename))
        ++ [("DESCR", t)] ∧
      fetchLoop hash net dlm (get_data_home dataHome ++ "/" ++ name) archive
          (if pathExists fs (get_data_home dataHome ++ "/" ++ name) then fs
           else makedirs fs (get_data_home dataHome) name)
        = (.ok (archive.map
            (fun rm => (rm.1, get_data_home dataHome ++ "/" ++ name ++ "/" ++ rm.2.filename))),
           fs1, n) := by
  rcases hloop : fetchLoop hash net dlm (get_data_home dataHome ++ "/" ++ name) archive
      (if pathExists fs (get_data_home dataHome ++ "/" ++ name) then fs
       else makedirs fs (get_data_home dataHome) name) with ⟨res, fsA, nA⟩
  cases res with
  | error e =>
    simp only [fetchDataset, hloop] at h
    exact absurd h (by simp)
  | ok recsA =>
    have hshape := fetchLoop_ok_shape hash net dlm _ archive _ recsA fsA nA hloop
    rcases hdescr : lookupAssoc descrStore descrFile with _ | t
    · simp only [fetchDataset, hloop, hdescr] at h
      exact absurd h (by simp)
    · simp only [fetchDataset, hloop, hdescr, Prod.mk.injEq, Except.ok.injEq] at h
      obtain ⟨hrecs, hfs, hn⟩ := h
      subst hshape
      exact ⟨t, rfl, hrecs.symm, by rw [hfs, hn]⟩

theorem fetchDataset_error_elim {name descrFile : String}
    {archive : List (String × RemoteFileMetadata)} {hash : String → String}
    {net descrStore : List (String × String)} {dataHome : Option String}
    {dlm : Bool} {fs : FS} {e : FetchError}
    (h : (fetchDataset name descrFile archive hash net descrStore dataHome dlm fs).1
          = .error e) :
    (∃ fsA nA, fetchLoop hash net dlm (get_data_home dataHome ++ "/" ++ name) archive
        (if pathExists fs (get_data_home dataHome ++ "/" ++ name) then fs
         else makedirs fs (get_data_home dataHome) name) = (.error e, fsA, nA)) ∨
    e = .descrMissing descrFile := by
  rcases hloop : fetchLoop hash net dlm (get_data_home dataHome ++ "/" ++ name) archive
      (if pathExists fs (get_data_home dataHome ++ "/" ++ name) then fs
       else makedirs fs (get_data_home dataHome) name) with ⟨res, fsA, nA⟩
  cases res with
  | error e1 =>
    simp only [fetchDataset, hloop, Except.error.injEq] at h
    exact Or.inl ⟨fsA, nA, by rw [h]⟩
  | ok recsA =>
    rcases hdescr : lookupAssoc descrStore descrFile with _ | t
    · simp only [fetchDataset, hloop, hdescr, Except.error.injEq] at h
      exact Or.inr h.symm
    · simp only [fetchDataset, hloop, hdescr] at h
      exact absurd h (by simp)

/-- C2: fetch is idempotent.  If a fetch call succeeds, a second fetch call
with the same arguments performs zero downloader (network) invocations —
every file already exists locally — and returns the identical record paths,
leaving the filesystem unchanged. -/
theorem fetch_idempotent (name descrFile : String)
    (archive : List (String × RemoteFileMetadata)) (hash : String → String)
    (net descrStore : List (String × String)) (dataHome : Option String)
    (dlm : Bool) (fs : FS) (recs : List (String × String)) (fs1 : FS) (n : Nat)
    (h : fetchDataset name descrFile archive hash net descrStore dataHome dlm fs
          = (.ok recs, fs1, n)) :
    fetchDataset name descrFile archive hash net descrStore dataHome dlm fs1
      = (.ok recs, fs1, 0) := by
  obtain ⟨t, hdescr, hrecs, hloop⟩ := fetchDataset_ok_elim h
  have hloc : pathExists fs1 (get_data_home dataHome ++ "/" ++ name) = true := by
    have h0 := pathExists_step_loc fs (get_data_home dataHome) name
    have h1 := fetchLoop_files_mono hash net dlm
      (get_data_home dataHome ++ "/" ++ name) archive _ _ h0
    rw [hloop] at h1
    exact h1
  have hall : ∀ rm ∈ archive,
      pathExists fs1 (get_data_home dataHome ++ "/" ++ name ++ "/" ++ rm.2.filename)
        = true :=
    fetchLoop_ok_exists hash net dlm _ archive _ _ fs1 n hloop
  simp only [fetchDataset, hloc, if_true,
    fetchLoop_all_present hash net dlm _ archive fs1 hall, hdescr, hrecs]

/-- C3: when `download_if_missing` is false and some declared file is not
cached, the fetch call fails with an `IOError` and the downloader is never
invoked (zero network calls). -/
theorem fetch_disabled_missing_raises (name descrFile : String)
    (archive : List (String × RemoteFileMetadata)) (hash : String → String)
    (net descrStore : List (String × String)) (dataHome : Option String)
    (fs : FS) (rm : String × RemoteFileMetadata) (hrm : rm ∈ archive)
    (hmiss : pathExists fs
        (get_data_home dataHome ++ "/" ++ name ++ "/" ++ rm.2.filename) = false) :
    (∃ M, (fetchDataset name descrFile archive hash net descrStore dataHome false fs).1
        = .error (.ioError M)) ∧
    (fetchDataset name descrFile archive hash net descrStore dataHome false fs).2.2
      = 0 := by
  have hstep : ∀ rm' : String × RemoteFileMetadata,
      pathExists (if pathExists fs (get_data_home dataHome ++ "/" ++ name) then fs
          else makedirs fs (get_data_home dataHome) name)
        (get_data_home dataHome ++ "/" ++ name ++ "/" ++ rm'.2.filename)
      = pathExists fs
          (get_data_home dataHome ++ "/" ++ name ++ "/" ++ rm'.2.filename) :=
    fun rm' => pathExists_step_local fs (get_data_home dataHome) name rm'.2.filename
  have hloop := fetchLoop_disabled hash net (get_data_home dataHome ++ "/" ++ name)
    archive
    (if pathExists fs (get_data_home dataHome ++ "/" ++ name) then fs
     else makedirs fs (get_data_home dataHome) name)
  rw [find_congr_on _
    (fun rm' => !(pathExists fs
      (get_data_home dataHome ++ "/" ++ name ++ "/" ++ rm'.2.filename)))
    archive (fun x _ => by rw [hstep x])] at hloop
  rcases hfind : archive.find?
      (fun rm' => !(pathExists fs
        (get_data_home dataHome ++ "/" ++ name ++ "/" ++ rm'.2.filename)))
    with _ | rm0
  · have := List.find?_eq_none.mp hfind rm hrm
    rw [hmiss] at this
    simp at this
  · rw [hfind] at hloop
    refine ⟨⟨ioMsg rm0.1
      (get_data_home dataHome ++ "/" ++ name ++ "/" ++ rm0.2.filename), ?_⟩, ?_⟩ <;>
      simp only [fetchDataset, hloop]

/-- C9: with `download_if_missing` false the downloader is never invoked in
any cache state: the network-call count is zero, and the call returns
successfully exactly when every declared file is present, otherwise it
raises `IOError` for the first missing role in the spec's iteration
order. -/
theorem fetch_disabled_no_network (name descrFile : String)
    (archive : List (String × RemoteFileMetadata)) (hash : String → String)
    (net descrStore : List (String × String)) (dataHome : Option String)
    (fs : FS) (t : String)
    (hdescr : lookupAssoc descrStore descrFile = some t) :
    (fetchDataset name descrFile archive hash net descrStore dataHome false fs).2.2
        = 0 ∧
    (archive.find? (fun rm => !(pathExists fs
        (get_data_home dataHome ++ "/" ++ name ++ "/" ++ rm.2.filename))) = none →
      (fetchDataset name descrFile archive hash net descrStore dataHome false fs).1
        = .ok (archive.map (fun rm =>
            (rm.1, get_data_home dataHome ++ "/" ++ name ++ "/" ++ rm.2.filename))
          ++ [("DESCR", t)])) ∧
    (∀ rm0, archive.find? (fun rm => !(pathExists fs
        (get_data_home dataHome ++ "/" ++ name ++ "/" ++ rm.2.filename))) = some rm0 →
      (fetchDataset name descrFile archive hash net descrStore dataHome false fs).1
        = .error (.ioError (ioMsg rm0.1
            (get_data_home dataHome ++ "/" ++ name ++ "/" ++ rm0.2.filename)))) := by
  have hstep : ∀ rm' : String × RemoteFileMetadata,
      pathExists (if pathExists fs (get_data_home dataHome ++ "/" ++ name) then fs
          else makedirs fs (get_data_home dataHome) name)
        (get_data_home dataHome ++ "/" ++ name ++ "/" ++ rm'.2.filename)
      = pathExists fs
          (get_data_home dataHome ++ "/" ++ name ++ "/" ++ rm'.2.filename) :=
    fun rm' => pathExists_step_local fs (get_data_home dataHome) name rm'.2.filename
  have hloop := fetchLoop_disabled hash net (get_data_home dataHome ++ "/" ++ name)
    archive
    (if pathExists fs (get_data_home dataHome ++ "/" ++ name) then fs
     else makedirs fs (get_data_home dataHome) name)
  rw [find_congr_on _
    (fun rm' => !(pathExists fs
      (get_data_home dataHome ++ "/" ++ name ++ "/" ++ rm'.2.filename)))
    archive (fun x _ => by rw [hstep x])] at hloop
  rcases hfind : archive.find?
      (fun rm' => !(pathExists fs
        (get_data_home dataHome ++ "/" ++ name ++ "/" ++ rm'.2.filename)))
    with _ | rm0 <;> rw [hfind] at hloop
  · refine ⟨?_, fun _ => ?_, fun rm0 hrm0 => by rw [hfind] at hrm0; exact absurd hrm0 (by simp)⟩ <;>
      simp only [fetchDataset, hloop, hdescr]
  · refine ⟨?_, fun hnone => by rw [hfind] at hnone; exact absurd hnone (by simp),
      fun rm1 hrm1 => ?_⟩
    · simp only [fetchDataset, hloop]
    · rw [hfind] at hrm1
      injection hrm1 with hrm1
      subst hrm1
      simp only [fetchDataset, hloop]

theorem fetchDataset_dirs (name descrFile : String)
    (archive : List (String × RemoteFileMetadata)) (hash : String → String)
    (net descrStore : List (String × String)) (dataHome : Option String)
    (dlm : Bool) (fs : FS) :
    ((fetchDataset name descrFile archive hash net descrStore dataHome dlm fs).2.1).dirs
      = (if pathExists fs (get_data_home dataHome ++ "/" ++ name) then fs
         else makedirs fs (get_data_home dataHome) name).dirs := by
  rcases hloop : fetchLoop hash net dlm (get_data_home dataHome ++ "/" ++ name) archive
      (if pathExists fs (get_data_home dataHome ++ "/" ++ name) then fs
       else makedirs fs (get_data_home dataHome) name) with ⟨res, fsA, nA⟩
  have hd := fetchLoop_dirs hash net dlm (get_data_home dataHome ++ "/" ++ name) archive
      (if pathExists fs (get_data_home dataHome ++ "/" ++ name) then fs
       else makedirs fs (get_data_home dataHome) name)
  rw [hloop] at hd
  cases res with
  | error e => simpa [fetchDataset, hloop] using hd
  | ok recsA =>
    rcases hdescr : lookupAssoc descrStore descrFile with _ | t <;>
      simpa [fetchDataset, hloop, hdescr] using hd

/-- C4: fetch is all-or-nothing: any bundle a fetch call ever returns is
complete — its keys are exactly the declared roles followed by `DESCR`, and
every declared file exists at return time — so no partial bundle is ever
handed to the caller; every failure surfaces as an `.error` outcome of the
same call. -/
theorem fetch_all_or_nothing (name descrFile : String)
    (archive : List (String × RemoteFileMetadata)) (hash : String → String)
    (net descrStore : List (String × String)) (dataHome : Option String)
    (dlm : Bool) (fs : FS) (recs : List (String × String)) (fs1 : FS) (n : Nat)
    (h : fetchDataset name descrFile archive hash net descrStore dataHome dlm fs
          = (.ok recs, fs1, n)) :
    recs.map Prod.fst = archive.map Prod.fst ++ ["DESCR"] ∧
    ∀ rm ∈ archive,
      pathExists fs1 (get_data_home dataHome ++ "/" ++ name ++ "/" ++ rm.2.filename)
        = true := by
  obtain ⟨t, hdescr, hrecs, hloop⟩ := fetchDataset_ok_elim h
  refine ⟨?_, fetchLoop_ok_exists hash net dlm _ archive _ _ fs1 n hloop⟩
  subst hrecs
  simp [List.map_append, List.map_map, Function.comp]

/-- C5: a successful fetch maps every declared role to the cache path
`<data_home>/<dataset_name>/<filename>` — the path ends in the declared
filename — and a filesystem entry exists at that path at return time. -/
theorem fetch_returns_declared_paths (name descrFile : String)
    (archive : List (String × RemoteFileMetadata)) (hash : String → String)
    (net descrStore : List (String × String)) (dataHome : Option String)
    (dlm : Bool) (fs : FS) (recs : List (String × String)) (fs1 : FS) (n : Nat)
    (h : fetchDataset name descrFile archive hash net descrStore dataHome dlm fs
          = (.ok recs, fs1, n)) :
    ∀ rm ∈ archive,
      (rm.1, get_data_home dataHome ++ "/" ++ name ++ "/" ++ rm.2.filename) ∈ recs ∧
      (∃ pre, get_data_home dataHome ++ "/" ++ name ++ "/" ++ rm.2.filename
          = pre ++ rm.2.filename) ∧
      pathExists fs1 (get_data_home dataHome ++ "/" ++ name ++ "/" ++ rm.2.filename)
        = true := by
  obtain ⟨t, hdescr, hrecs, hloop⟩ := fetchDataset_ok_elim h
  intro rm hrm
  refine ⟨?_, ⟨get_data_home dataHome ++ "/" ++ name ++ "/", rfl⟩,
    fetchLoop_ok_exists hash net dlm _ archive _ _ fs1 n hloop rm hrm⟩
  subst hrecs
  exact List.mem_append_left _ (List.mem_map.mpr ⟨rm, hrm, rfl⟩)

/-- C8: on success the description is attached last: the bundle's final
entry is `DESCR` with exactly the text stored for the dataset's description
file, and it is attached only once all declared files are resolved (they
all exist at return time). -/
theorem fetch_descr_attached_last (name descrFile : String)
    (archive : List (String × RemoteFileMetadata)) (hash : String → String)
    (net descrStore : List (String × String)) (dataHome : Option String)
    (dlm : Bool) (fs : FS) (recs : List (String × String)) (fs1 : FS) (n : Nat)
    (h : fetchDataset name descrFile archive hash net descrStore dataHome dlm fs
          = (.ok recs, fs1, n)) :
    ∃ t, lookupAssoc descrStore descrFile = some t ∧
      recs.getLast? = some ("DESCR", t) ∧
      ∀ rm ∈ archive,
        pathExists fs1 (get_data_home dataHome ++ "/" ++ name ++ "/" ++ rm.2.filename)
          = true := by
  obtain ⟨t, hdescr, hrecs, hloop⟩ := fetchDataset_ok_elim h
  refine ⟨t, hdescr, ?_, fetchLoop_ok_exists hash net dlm _ archive _ _ fs1 n hloop⟩
  subst hrecs
  simp

/-- C10: the key set of a returned bundle is fixed and independent of the
cache state: a successful `fetch_adk_equilibrium` bundle has exactly the
keys topology, trajectory, DESCR, and a successful `fetch_ifabp_water`
bundle exactly topology, structure, trajectory, DESCR, in declaration
order. -/
theorem fetch_bundle_keys (hash : String → String)
    (net descrStore : List (String × String)) (dataHome : Option String)
    (dlm : Bool) (fs : FS) :
    (∀ recs fs1 n,
      fetch_adk_equilibrium hash net descrStore dataHome dlm fs = (.ok recs, fs1, n) →
      recs.map Prod.fst = ["topology", "trajectory", "DESCR"]) ∧
    (∀ recs fs1 n,
      fetch_ifabp_water hash net descrStore dataHome dlm fs = (.ok recs, fs1, n) →
      recs.map Prod.fst = ["topology", "structure", "trajectory", "DESCR"]) := by
  constructor <;> intro recs fs1 n h <;>
    obtain ⟨t, hdescr, hrecs, hloop⟩ := fetchDataset_ok_elim h <;> subst hrecs <;>
    simp [adk_equilibrium.ARCHIVE, ifabp_water.ARCHIVE]

/-- C7: directory creation is idempotent and minimal: a fetch call creates
`<data_home>/<dataset_name>` (and `<data_home>` itself when absent) when it
does not exist, changes nothing and raises nothing when it already exists,
and never creates any directory other than those two. -/
theorem fetch_creates_dataset_dir (name descrFile : String)
    (archive : List (String × RemoteFileMetadata)) (hash : String → String)
    (net descrStore : List (String × String)) (dataHome : Option String)
    (dlm : Bool) (fs : FS) :
    (∀ d ∈ ((fetchDataset name descrFile archive hash net descrStore dataHome dlm
          fs).2.1).dirs,
        d ∈ fs.dirs ∨ d = get_data_home dataHome ∨
          d = get_data_home dataHome ++ "/" ++ name) ∧
    (pathExists fs (get_data_home dataHome ++ "/" ++ name) = false →
      (get_data_home dataHome ++ "/" ++ name)
          ∈ ((fetchDataset name descrFile archive hash net descrStore dataHome dlm
              fs).2.1).dirs ∧
      (pathExists fs (get_data_home dataHome) = false →
        get_data_home dataHome
          ∈ ((fetchDataset name descrFile archive hash net descrStore dataHome dlm
              fs).2.1).dirs)) ∧
    (pathExists fs (get_data_home dataHome ++ "/" ++ name) = true →
      ((fetchDataset name descrFile archive hash net descrStore dataHome dlm
          fs).2.1).dirs = fs.dirs) := by
  have hd := fetchDataset_dirs name descrFile archive hash net descrStore dataHome dlm fs
  refine ⟨?_, ?_, ?_⟩
  · intro d hdm
    rw [hd] at hdm
    by_cases hex : pathExists fs (get_data_home dataHome ++ "/" ++ name) = true
    · rw [if_pos hex] at hdm
      exact Or.inl hdm
    · rw [if_neg hex] at hdm
      exact makedirs_dirs_subset fs _ _ d hdm
  · intro hmiss
    have hneg : ¬ pathExists fs (get_data_home dataHome ++ "/" ++ name) = true := by
      simp [hmiss]
    rw [hd, if_neg hneg]
    exact ⟨makedirs_mem_sub fs _ _, fun hroot => makedirs_mem_root fs _ _ hroot⟩
  · intro hpres
    rw [hd, if_pos hpres]

/-- C1 amended: the fetch loop checks only existence, never the checksum,
of a cached file: whenever every declared file is present — whatever its
content hashes to — the call succeeds with those paths, invokes the
downloader zero times and leaves every file byte-for-byte untouched.
Checksum verification happens only when the downloader retrieves a missing
file. -/
theorem fetch_existence_only_check (name descrFile : String)
    (archive : List (String × RemoteFileMetadata)) (hash : String → String)
    (net descrStore : List (String × String)) (dataHome : Option String)
    (dlm : Bool) (fs : FS) (t : String)
    (hall : ∀ rm ∈ archive,
      pathExists fs (get_data_home dataHome ++ "/" ++ name ++ "/" ++ rm.2.filename)
        = true)
    (hdescr : lookupAssoc descrStore descrFile = some t) :
    fetchDataset name descrFile archive hash net descrStore dataHome dlm fs
      = (.ok (archive.map (fun rm =>
            (rm.1, get_data_home dataHome ++ "/" ++ name ++ "/" ++ rm.2.filename))
          ++ [("DESCR", t)]),
         (if pathExists fs (get_data_home dataHome ++ "/" ++ name) then fs
          else makedirs fs (get_data_home dataHome) name), 0) ∧
    ((if pathExists fs (get_data_home dataHome ++ "/" ++ name) then fs
      else makedirs fs (get_data_home dataHome) name)).files = fs.files := by
  have hall0 : ∀ rm ∈ archive,
      pathExists (if pathExists fs (get_data_home dataHome ++ "/" ++ name) then fs
          else makedirs fs (get_data_home dataHome) name)
        (get_data_home dataHome ++ "/" ++ name ++ "/" ++ rm.2.filename) = true :=
    fun rm hrm => by
      rw [pathExists_step_local fs (get_data_home dataHome) name rm.2.filename]
      exact hall rm hrm
  constructor
  · simp only [fetchDataset, fetchLoop_all_present hash net dlm _ archive _ hall0,
      hdescr]
  · split
    · rfl
    · exact makedirs_files fs _ _

/-- C6 amended: every missing-file `IOError` message identifies the role,
the expected local path, and the dataset name (which appears as a component
of that path).  Downloader-raised messages identify the expected local path
(hence the dataset name) and, for integrity failures, the expected versus
actual checksum — but not the role, since the call site hands the
downloader only the file metadata and the target directory. -/
theorem fetch_error_messages (name descrFile : String)
    (archive : List (String × RemoteFileMetadata)) (hash : String → String)
    (net descrStore : List (String × String)) (dataHome : Option String)
    (dlm : Bool) (fs : FS) (M : String) :
    ((fetchDataset name descrFile archive hash net descrStore dataHome dlm fs).1
        = .error (.ioError M) →
      ∃ rm ∈ archive,
        M = ioMsg rm.1
          (get_data_home dataHome ++ "/" ++ name ++ "/" ++ rm.2.filename) ∧
        strOccurs rm.1 M = true ∧
        strOccurs (get_data_home dataHome ++ "/" ++ name ++ "/" ++ rm.2.filename) M
          = true ∧
        strOccurs name M = true) ∧
    ((fetchDataset name descrFile archive hash net descrStore dataHome dlm fs).1
        = .error (.integrityError M) →
      ∃ rm ∈ archive, ∃ payload,
        lookupAssoc net rm.2.url = some payload ∧
        M = integrityMsg
          (get_data_home dataHome ++ "/" ++ name ++ "/" ++ rm.2.filename)
          (hash payload) rm.2.checksum ∧
        strOccurs (get_data_home dataHome ++ "/" ++ name ++ "/" ++ rm.2.filename) M
          = true ∧
        strOccurs name M = true ∧
        strOccurs (hash payload) M = true ∧
        strOccurs rm.2.checksum M = true) ∧
    ((fetchDataset name descrFile archive hash net descrStore dataHome dlm fs).1
        = .error (.transientFetchError M) →
      ∃ rm ∈ archive,
        M = transientMsg rm.2.url
          (get_data_home dataHome ++ "/" ++ name ++ "/" ++ rm.2.filename) ∧
        strOccurs (get_data_home dataHome ++ "/" ++ name ++ "/" ++ rm.2.filename) M
          = true ∧
        strOccurs name M = true) := by
  refine ⟨fun h => ?_, fun h => ?_, fun h => ?_⟩
  · rcases fetchDataset_error_elim h with ⟨fsA, nA, hloop⟩ | habs
    · obtain ⟨rm, hrm, hcase⟩ := fetchLoop_error hash net dlm _ archive _ _ fsA nA hloop
      rcases hcase with h1 | ⟨payload, hnet, hchk, h1⟩ | ⟨hnet, h1⟩
      · injection h1 with h1
        subst h1
        exact ⟨rm, hrm, rfl, strOccurs_ioMsg_role _ _, strOccurs_ioMsg_path _ _,
          strOccurs_ioMsg_name _ _ _ _⟩
      · exact absurd h1 (by simp)
      · exact absurd h1 (by simp)
    · exact absurd habs (by simp)
  · rcases fetchDataset_error_elim h with ⟨fsA, nA, hloop⟩ | habs
    · obtain ⟨rm, hrm, hcase⟩ := fetchLoop_error hash net dlm _ archive _ _ fsA nA hloop
      rcases hcase with h1 | ⟨payload, hnet, hchk, h1⟩ | ⟨hnet, h1⟩
      · exact absurd h1 (by simp)
      · injection h1 with h1
        subst h1
        exact ⟨rm, hrm, payload, hnet, rfl, strOccurs_integrityMsg_path _ _ _,
          strOccurs_integrityMsg_name _ _ _ _ _,
          strOccurs_integrityMsg_actual _ _ _,
          strOccurs_integrityMsg_expected _ _ _⟩
      · exact absurd h1 (by simp)
    · exact absurd habs (by simp)
  · rcases fetchDataset_error_elim h with ⟨fsA, nA, hloop⟩ | habs
    · obtain ⟨rm, hrm, hcase⟩ := fetchLoop_error hash net dlm _ archive _ _ fsA nA hloop
      rcases hcase with h1 | ⟨payload, hnet, hchk, h1⟩ | ⟨hnet, h1⟩
      · exact absurd h1 (by simp)
      · exact absurd h1 (by simp)
      · injection h1 with h1
        subst h1
        exact ⟨rm, hrm, rfl, strOccurs_transientMsg_path _ _,
          strOccurs_transientMsg_name _ _ _ _⟩
    · exact absurd habs (by simp)

/-- C1 counterexample: with both AdK files cached but the topology content
mutated to "garbage" — whose hash differs from the expected checksum
recorded in `ARCHIVE` — `fetch_adk_equilibrium` succeeds, returns the
mutated path in the bundle, invokes the downloader zero times and leaves
the filesystem untouched: it neither re-downloads the file nor raises
IntegrityError, contradicting the claim. -/
theorem fetch_returns_mutated_cached_file :
    adk_equilibrium.ARCHIVE.head?.map (fun rm => (rm.1, rm.2.checksum))
      = some ("topology", adkPsfChecksum) ∧
    getFile mutatedFS adkPsfPath = some "garbage" ∧
    id "garbage" ≠ adkPsfChecksum ∧
    fetch_adk_equilibrium id [] adkDescrStore none true mutatedFS
      = (.ok [("topology", adkPsfPath), ("trajectory", adkDcdPath),
              ("DESCR", "AdK equilibrium dataset")], mutatedFS, 0) :=
  ⟨rfl, rfl, by decide, rfl⟩

/-- C1 amended witness: on the mutated cache the fetch call returns the
bundle with the mutated paths, by the amended theorem. -/
theorem fetch_existence_only_check_witness :
    fetchDataset adk_equilibrium.NAME adk_equilibrium.DESCRIPTION
        adk_equilibrium.ARCHIVE id [] adkDescrStore none true mutatedFS
      = (.ok [("topology", adkPsfPath), ("trajectory", adkDcdPath),
              ("DESCR", "AdK equilibrium dataset")], mutatedFS, 0) :=
  (fetch_existence_only_check adk_equilibrium.NAME adk_equilibrium.DESCRIPTION
    adk_equilibrium.ARCHIVE id [] adkDescrStore none true mutatedFS
    "AdK equilibrium dataset" (by decide) rfl).1

/-- C2 witness: a concrete successful fetch from the empty cache (two
downloads), whose repetition returns the identical bundle with zero
downloads. -/
theorem fetch_idempotent_witness :
    fetchDataset adk_equilibrium.NAME adk_equilibrium.DESCRIPTION
        adk_equilibrium.ARCHIVE id adkGoodNet adkDescrStore none true emptyFS
      = (.ok [("topology", adkPsfPath), ("trajectory", adkDcdPath),
              ("DESCR", "AdK equilibrium dataset")], adkFetchedFS, 2) ∧
    fetchDataset adk_equilibrium.NAME adk_equilibrium.DESCRIPTION
        adk_equilibrium.ARCHIVE id adkGoodNet adkDescrStore none true adkFetchedFS
      = (.ok [("topology", adkPsfPath), ("trajectory", adkDcdPath),
              ("DESCR", "AdK equilibrium dataset")], adkFetchedFS, 0) :=
  ⟨rfl, fetch_idempotent adk_equilibrium.NAME adk_equilibrium.DESCRIPTION
    adk_equilibrium.ARCHIVE id adkGoodNet adkDescrStore none true emptyFS
    [("topology", adkPsfPath), ("trajectory", adkDcdPath),
     ("DESCR", "AdK equilibrium dataset")] adkFetchedFS 2 rfl⟩

/-- C3 witness: fetching AdK from the empty cache with downloads disabled
performs zero downloader invocations. -/
theorem fetch_disabled_missing_raises_witness :
    (fetchDataset adk_equilibrium.NAME adk_equilibrium.DESCRIPTION
        adk_equilibrium.ARCHIVE id [] adkDescrStore none false emptyFS).2.2 = 0 :=
  (fetch_disabled_missing_raises adk_equilibrium.NAME adk_equilibrium.DESCRIPTION
    adk_equilibrium.ARCHIVE id [] adkDescrStore none emptyFS
    ("topology",
      { filename := "adk4AKE.psf",
        url := "https://ndownloader.figshare.com/files/8672230",
        checksum :=
          "1aa947d58fb41b6805dc1e7be4dbe65c6a8f4690f0bd7fc2ae03e7bd437085f4" })
    (by simp [adk_equilibrium.ARCHIVE]) rfl).2

/-- C4 witness: the bundle of a concrete successful AdK fetch has exactly
the declared role keys followed by DESCR. -/
theorem fetch_all_or_nothing_witness :
    ([("topology", adkPsfPath), ("trajectory", adkDcdPath),
      ("DESCR", "AdK equilibrium dataset")] : List (String × String)).map Prod.fst
      = adk_equilibrium.ARCHIVE.map Prod.fst ++ ["DESCR"] :=
  (fetch_all_or_nothing adk_equilibrium.NAME adk_equilibrium.DESCRIPTION
    adk_equilibrium.ARCHIVE id adkGoodNet adkDescrStore none true emptyFS
    [("topology", adkPsfPath), ("trajectory", adkDcdPath),
     ("DESCR", "AdK equilibrium dataset")] adkFetchedFS 2 rfl).1

/-- C5 witness: in a concrete successful AdK fetch the topology role maps
to the declared cache path and the file exists there. -/
theorem fetch_returns_declared_paths_witness :
    ("topology", adkPsfPath) ∈
      ([("topology", adkPsfPath), ("trajectory", adkDcdPath),
        ("DESCR", "AdK equilibrium dataset")] : List (String × String)) ∧
    pathExists adkFetchedFS adkPsfPath = true := by
  obtain ⟨hmem, -, hex⟩ := fetch_returns_declared_paths adk_equilibrium.NAME
    adk_equilibrium.DESCRIPTION adk_equilibrium.ARCHIVE id adkGoodNet adkDescrStore
    none true emptyFS
    [("topology", adkPsfPath), ("trajectory", adkDcdPath),
     ("DESCR", "AdK equilibrium dataset")] adkFetchedFS 2 rfl
    ("topology",
      { filename := "adk4AKE.psf",
        url := "https://ndownloader.figshare.com/files/8672230",
        checksum :=
          "1aa947d58fb41b6805dc1e7be4dbe65c6a8f4690f0bd7fc2ae03e7bd437085f4" })
    (by simp [adk_equilibrium.ARCHIVE])
  exact ⟨hmem, hex⟩

/-- C6 counterexample: the downloader's IntegrityError message for a
corrupted AdK topology download does not contain the role name
"topology" anywhere, so the claim that every error identifies the role
fails. -/
theorem fetch_integrity_error_lacks_role :
    (fetch_adk_equilibrium id adkBadNet adkDescrStore none true emptyFS).1
      = .error (.integrityError (integrityMsg adkPsfPath "garbage" adkPsfChecksum)) ∧
    strOccurs "topology" (integrityMsg adkPsfPath "garbage" adkPsfChecksum)
      = false := by
  constructor
  · rfl
  · set_option maxRecDepth 10000 in rfl

/-- C6 amended witness: the missing-file IOError message for the topology
role contains both the role and the dataset name. -/
theorem fetch_error_messages_witness :
    strOccurs "topology" (ioMsg "topology" adkPsfPath) = true ∧
    strOccurs "adk_equilibrium" (ioMsg "topology" adkPsfPath) = true := by
  obtain ⟨rm, hrm, hM, hrole, hpath, hname⟩ :=
    (fetch_error_messages adk_equilibrium.NAME adk_equilibrium.DESCRIPTION
      adk_equilibrium.ARCHIVE id [] adkDescrStore none false emptyFS
      (ioMsg "topology" adkPsfPath)).1 rfl
  have hrm2 : rm = ("topology",
      { filename := "adk4AKE.psf",
        url := "https://ndownloader.figshare.com/files/8672230",
        checksum :=
          "1aa947d58fb41b6805dc1e7be4dbe65c6a8f4690f0bd7fc2ae03e7bd437085f4" }) ∨
      rm = ("trajectory",
      { filename := "1ake_007-nowater-core-dt240ps.dcd",
        url := "https://ndownloader.figshare.com/files/8672074",
        checksum :=
          "598fcbcfcc425f6eafbe9997238320fcacc6a4613ecce061e1521732bab734bf" }) := by
    simpa [adk_equilibrium.ARCHIVE] using hrm
  rcases hrm2 with h | h
  · subst h
    exact ⟨hrole, hname⟩
  · subst h
    exact absurd hM (by set_option maxRecDepth 10000 in decide)

/-- C7 witness: fetching AdK against a fresh cache creates the dataset
directory. -/
theorem fetch_creates_dataset_dir_witness :
    "~/MDAnalysis_data/adk_equilibrium"
      ∈ ((fetchDataset adk_equilibrium.NAME adk_equilibrium.DESCRIPTION
          adk_equilibrium.ARCHIVE id adkGoodNet adkDescrStore none true
          emptyFS).2.1).dirs :=
  ((fetch_creates_dataset_dir adk_equilibrium.NAME adk_equilibrium.DESCRIPTION
    adk_equilibrium.ARCHIVE id adkGoodNet adkDescrStore none true emptyFS).2.1
    rfl).1

/-- C8 witness: in a concrete successful AdK fetch the bundle's last entry
is DESCR with the stored description text. -/
theorem fetch_descr_attached_last_witness :
    ([("topology", adkPsfPath), ("trajectory", adkDcdPath),
      ("DESCR", "AdK equilibrium dataset")] : List (String × String)).getLast?
      = some ("DESCR", "AdK equilibrium dataset") := by
  obtain ⟨t, ht, hlast, -⟩ := fetch_descr_attached_last adk_equilibrium.NAME
    adk_equilibrium.DESCRIPTION adk_equilibrium.ARCHIVE id adkGoodNet adkDescrStore
    none true emptyFS
    [("topology", adkPsfPath), ("trajectory", adkDcdPath),
     ("DESCR", "AdK equilibrium dataset")] adkFetchedFS 2 rfl
  have ht2 : some "AdK equilibrium dataset" = some t :=
    (rfl : lookupAssoc adkDescrStore adk_equilibrium.DESCRIPTION
      = some "AdK equilibrium dataset").symm.trans ht
  injection ht2 with ht2
  rw [← ht2] at hlast
  exact hlast

/-- C9 witness: with downloads disabled on the empty cache, the AdK fetch
makes zero network calls and raises the IOError for the first role. -/
theorem fetch_disabled_no_network_witness :
    (fetchDataset adk_equilibrium.NAME adk_equilibrium.DESCRIPTION
        adk_equilibrium.ARCHIVE id adkGoodNet adkDescrStore none false
        emptyFS).2.2 = 0 ∧
    (fetchDataset adk_equilibrium.NAME adk_equilibrium.DESCRIPTION
        adk_equilibrium.ARCHIVE id adkGoodNet adkDescrStore none false emptyFS).1
      = .error (.ioError (ioMsg "topology" adkPsfPath)) := by
  obtain ⟨h1, -, h3⟩ := fetch_disabled_no_network adk_equilibrium.NAME
    adk_equilibrium.DESCRIPTION adk_equilibrium.ARCHIVE id adkGoodNet adkDescrStore
    none emptyFS "AdK equilibrium dataset" rfl
  exact ⟨h1, h3 ("topology",
    { filename := "adk4AKE.psf",
      url := "https://ndownloader.figshare.com/files/8672230",
      checksum :=
        "1aa947d58fb41b6805dc1e7be4dbe65c6a8f4690f0bd7fc2ae03e7bd437085f4" }) rfl⟩

/-- C10 witness: the key lists of concrete successful bundles of both
datasets. -/
theorem fetch_bundle_keys_witness :
    ([("topology", adkPsfPath), ("trajectory", adkDcdPath),
      ("DESCR", "AdK equilibrium dataset")] : List (String × String)).map Prod.fst
      = ["topology", "trajectory", "DESCR"] ∧
    ([("topology", ifabpPsfPath), ("structure", ifabpPdbPath),
      ("trajectory", ifabpDcdPath),
      ("DESCR", "IFABP water dataset")] : List (String × String)).map Prod.fst
      = ["topology", "structure", "trajectory", "DESCR"] :=
  ⟨(fetch_bundle_keys id adkGoodNet adkDescrStore none true emptyFS).1
      [("topology", adkPsfPath), ("trajectory", adkDcdPath),
       ("DESCR", "AdK equilibrium dataset")] adkFetchedFS 2 rfl,
   (fetch_bundle_keys id ifabpNet ifabpDescrStore none true emptyFS).2
      [("topology", ifabpPsfPath), ("structure", ifabpPdbPath),
       ("trajectory", ifabpDcdPath), ("DESCR", "IFABP water dataset")]
      ifabpFetchedFS 3 rfl⟩

end MDAnalysisData
